import Mathlib

/-!
Verification of the document-analyzer core: an in-memory `DocumentStore`
(add / get / search / list) and a pure `TextAnalyzer` (sentiment, keyword
extraction, readability, syllable estimation, text statistics).

The Python source (`src/main.py`) is shallowly embedded below.  Strings are
Lean `String`s (lists of characters); Python float arithmetic is idealized
as exact rational arithmetic over `ℚ`, with Python's `round(x, k)`
(banker's rounding) modelled by `rhe` (round half to even) at scale `10^k`.
Character classes (`\w`, `\s`, `str.lower`) are modelled at ASCII level,
matching the behaviour of the source on ASCII text.
-/

/-- `\w` word-character class used by `clean_text`'s regex `[^\w\s]`:
alphanumeric or underscore. -/
def isWordChar (c : Char) : Bool := c.isAlphanum || c == '_'

/-- The sentence-separator class `[.!?]` used by `get_sentences`. -/
def isSentSep (c : Char) : Bool := c == '.' || c == '!' || c == '?'

/-- Split a character list on maximal runs of characters satisfying `p`,
discarding empty pieces (the semantics of Python `str.split()` with a
whitespace class, and of `re.split('[.!?]+', ·)` up to empty pieces, which
the source discards afterwards anyway). -/
def splitRunsAux (p : Char → Bool) : List Char → List Char → List (List Char)
  | [], acc => if acc = [] then [] else [acc.reverse]
  | c :: cs, acc =>
    if p c then
      if acc = [] then splitRunsAux p cs [] else acc.reverse :: splitRunsAux p cs []
    else splitRunsAux p cs (c :: acc)

/-- See `splitRunsAux`; `acc` starts out empty. -/
def splitRuns (p : Char → Bool) (l : List Char) : List (List Char) :=
  splitRunsAux p l []

/-- Python `str.strip()`: drop whitespace from both ends. -/
def strip (l : List Char) : List Char :=
  ((l.dropWhile Char.isWhitespace).reverse.dropWhile Char.isWhitespace).reverse

/-- Python `str.lower()` (ASCII model). -/
def lowerStr (s : String) : String := ⟨s.data.map Char.toLower⟩

/-- `TextAnalyzer.clean_text`: lowercase, then remove every character that
is neither a word character nor whitespace (regex `re.sub(r'[^\w\s]', '', ·)`). -/
def clean_text (text : String) : String :=
  ⟨(text.data.map Char.toLower).filter (fun c => isWordChar c || c.isWhitespace)⟩

/-- `TextAnalyzer.get_words`: split the cleaned text on whitespace and keep
the non-empty tokens. -/
def get_words (text : String) : List String :=
  ((splitRuns Char.isWhitespace (clean_text text).data).map String.mk).filter
    (fun w => w ≠ "")

/-- `TextAnalyzer.get_sentences`: split the raw text on runs of `[.!?]`,
strip each piece, and keep the non-blank pieces. -/
def get_sentences (text : String) : List String :=
  (((splitRuns isSentSep text.data).map strip).filter (fun s => s ≠ [])).map String.mk

/-- Round half to even: the integer nearest to `q`, ties going to the even
integer.  This is Python's `round` on exact values. -/
def rhe (q : ℚ) : ℤ :=
  if q - ⌊q⌋ < 1/2 then ⌊q⌋
  else if 1/2 < q - ⌊q⌋ then ⌊q⌋ + 1
  else if ⌊q⌋ % 2 = 0 then ⌊q⌋ else ⌊q⌋ + 1

/-- Python `round(q, 3)`. -/
def rnd3 (q : ℚ) : ℚ := (rhe (q * 1000) : ℚ) / 1000

/-- Python `round(q, 2)`. -/
def rnd2 (q : ℚ) : ℚ := (rhe (q * 100) : ℚ) / 100

/-- `TextAnalyzer.POSITIVE_WORDS`. -/
def POSITIVE_WORDS : List String :=
  ["good", "great", "excellent", "amazing", "wonderful", "fantastic", "awesome",
   "love", "like", "enjoy", "happy", "pleased", "satisfied", "delighted",
   "benefits", "advantages", "success", "effective", "efficient", "improve",
   "better", "best", "perfect", "outstanding", "remarkable", "positive",
   "opportunity", "solution", "helpful", "useful", "valuable", "important",
   "essential", "crucial", "significant", "rewarding", "promising"]

/-- `TextAnalyzer.NEGATIVE_WORDS`. -/
def NEGATIVE_WORDS : List String :=
  ["bad", "terrible", "awful", "horrible", "hate", "dislike", "sad",
   "disappointed", "frustrated", "angry", "annoyed", "problems", "issues",
   "challenges", "difficult", "hard", "impossible", "failure", "fail",
   "worst", "poor", "disappointing", "negative", "wrong", "error",
   "mistakes", "concerning", "worried", "stress", "overwhelming"]

/-- `TextAnalyzer.STOP_WORDS`. -/
def STOP_WORDS : List String :=
  ["the", "a", "an", "and", "or", "but", "in", "on", "at", "to", "for",
   "of", "with", "by", "is", "are", "was", "were", "be", "been", "have",
   "has", "had", "do", "does", "did", "will", "would", "could", "should",
   "may", "might", "can", "this", "that", "these", "those", "i", "you",
   "he", "she", "it", "we", "they", "me", "him", "her", "us", "them",
   "my", "your", "his", "its", "our", "their", "all", "any",
   "each", "few", "more", "most", "other", "some", "such", "no", "not",
   "only", "own", "same", "so", "than", "too", "very", "just", "now"]

/-- Result of `TextAnalyzer.analyze_sentiment` (the nested `scores` dict is
flattened into the three score fields). -/
structure SentimentResult where
  sentiment : String
  confidence : ℚ
  positive : ℚ
  negative : ℚ
  neutral : ℚ
deriving DecidableEq, Repr

/-- `TextAnalyzer.analyze_sentiment`. -/
def analyze_sentiment (text : String) : SentimentResult :=
  let words := get_words text
  let positive_count := words.countP (fun w => POSITIVE_WORDS.contains w)
  let negative_count := words.countP (fun w => NEGATIVE_WORDS.contains w)
  let total_words := words.length
  if total_words = 0 then ⟨"neutral", 0, 0, 0, 0⟩
  else
    let positive_score : ℚ := positive_count / total_words
    let negative_score : ℚ := negative_count / total_words
    if positive_score > negative_score then
      ⟨"positive", rnd3 positive_score, rnd3 positive_score, rnd3 negative_score,
        rnd3 (1 - positive_score - negative_score)⟩
    else if negative_score > positive_score then
      ⟨"negative", rnd3 negative_score, rnd3 positive_score, rnd3 negative_score,
        rnd3 (1 - positive_score - negative_score)⟩
    else
      ⟨"neutral", rnd3 (1/2), rnd3 positive_score, rnd3 negative_score,
        rnd3 (1 - positive_score - negative_score)⟩

/-- One entry of the `extract_keywords` result. -/
structure Keyword where
  word : String
  frequency : Nat
  relevance : ℚ
deriving DecidableEq, Repr

/-- The `filtered_words` list inside `extract_keywords`: drop stop words and
words of length at most 2. -/
def filtered_words (text : String) : List String :=
  (get_words text).filter (fun w => !STOP_WORDS.contains w && decide (2 < w.length))

/-- Distinct elements of a list in order of first occurrence: the key order
of a Python `Counter` (insertion-ordered dict). -/
def dedupFirst : List String → List String
  | [] => []
  | w :: ws => w :: (dedupFirst ws).filter (fun v => v ≠ w)

/-- `Counter(l).items()`: each distinct element with its multiplicity, in
first-occurrence order. -/
def counterItems (l : List String) : List (String × Nat) :=
  (dedupFirst l).map (fun w => (w, l.count w))

/-- Insert into a list sorted by strictly decreasing count, placing the new
element before every element of equal count (the new element comes earlier
in the original list: this realizes the stability of `sorted`/`nlargest`). -/
def insertCountDesc (x : String × Nat) : List (String × Nat) → List (String × Nat)
  | [] => [x]
  | y :: ys => if y.2 ≤ x.2 then x :: y :: ys else y :: insertCountDesc x ys

/-- Stable sort by descending count (the order produced by
`sorted(items, key=itemgetter(1), reverse=True)`). -/
def sortCountDesc (l : List (String × Nat)) : List (String × Nat) :=
  l.foldr insertCountDesc []

/-- `Counter.most_common(n)`: the first `n` items in stable
descending-count order (`heapq.nlargest` semantics; `n ≤ 0` gives `[]`). -/
def most_common (l : List (String × Nat)) (n : Int) : List (String × Nat) :=
  (sortCountDesc l).take n.toNat

/-- Build one keyword entry: relevance is the frequency over the total
filtered-token count, rounded to 3 decimals, or 0 when no tokens survived. -/
def keyword_entry (total_words : Nat) (p : String × Nat) : Keyword :=
  ⟨p.1, p.2, if 0 < total_words then rnd3 ((p.2 : ℚ) / total_words) else 0⟩

/-- The full ranked keyword list (``most_common`` without truncation). -/
def ranked_keywords (text : String) : List (String × Nat) :=
  sortCountDesc (counterItems (filtered_words text))

/-- `TextAnalyzer.extract_keywords`. -/
def extract_keywords (text : String) (limit : Int) : List Keyword :=
  let filtered := filtered_words text
  (most_common (counterItems filtered) limit).map (keyword_entry filtered.length)

/-- The vowel class `aeiouy` of `count_syllables`. -/
def vowels : List Char := ['a', 'e', 'i', 'o', 'u', 'y']

/-- The scan loop of `count_syllables`: count characters in the vowel class
whose predecessor was not in the vowel class. -/
def syllAux : List Char → Bool → Nat
  | [], _ => 0
  | c :: cs, previous_was_vowel =>
    if vowels.contains c then (if previous_was_vowel then 0 else 1) + syllAux cs true
    else syllAux cs false

/-- `TextAnalyzer.count_syllables`. -/
def count_syllables (w : String) : Nat :=
  let word := w.data.map Char.toLower
  let syllable_count := syllAux word false
  let adjusted :=
    if word.getLast? = some 'e' ∧ 1 < syllable_count then syllable_count - 1
    else syllable_count
  max 1 adjusted

/-- Result of `TextAnalyzer.calculate_readability`. -/
structure ReadabilityResult where
  flesch_reading_ease : ℚ
  flesch_grade_level : ℚ
  avg_sentence_length : ℚ
  avg_word_length : ℚ
  difficulty : String
deriving DecidableEq, Repr

/-- The difficulty bucketing of `calculate_readability`. -/
def difficultyOf (flesch_score : ℚ) : String :=
  if 90 ≤ flesch_score then "very easy"
  else if 80 ≤ flesch_score then "easy"
  else if 70 ≤ flesch_score then "fairly easy"
  else if 60 ≤ flesch_score then "standard"
  else if 50 ≤ flesch_score then "fairly difficult"
  else if 30 ≤ flesch_score then "difficult"
  else "very difficult"

/-- `TextAnalyzer.calculate_readability`. -/
def calculate_readability (text : String) : ReadabilityResult :=
  let words := get_words text
  let sentences := get_sentences text
  if sentences = [] ∨ words = [] then ⟨0, 0, 0, 0, "unknown"⟩
  else
    let total_words : ℚ := words.length
    let total_sentences : ℚ := sentences.length
    let total_syllables : ℚ := ((words.map count_syllables).sum : ℕ)
    let avg_sentence_length := total_words / total_sentences
    let avg_syllables_per_word := total_syllables / total_words
    let avg_word_length := (((words.map String.length).sum : ℕ) : ℚ) / total_words
    let flesch_score :=
      206.835 - (1.015 * avg_sentence_length) - (84.6 * avg_syllables_per_word)
    let flesch_clamped := max 0 (min 100 flesch_score)
    let grade_level :=
      (0.39 * avg_sentence_length) + (11.8 * avg_syllables_per_word) - 15.59
    let grade_clamped := max 0 grade_level
    ⟨rnd2 flesch_clamped, rnd2 grade_clamped, rnd2 avg_sentence_length,
      rnd2 avg_word_length, difficultyOf flesch_clamped⟩

/-- Result of `TextAnalyzer.get_text_stats`. -/
structure TextStats where
  word_count : Nat
  sentence_count : Nat
  character_count : Nat
  character_count_no_spaces : Nat
  paragraph_count : Nat
  avg_words_per_sentence : ℚ
deriving DecidableEq, Repr

/-- Python `text.replace(' ', '')`: remove every literal space character
(and nothing else). -/
def removeSpaces : List Char → List Char
  | [] => []
  | c :: cs => if c = ' ' then removeSpaces cs else c :: removeSpaces cs

/-- Python `text.split('\n\n')`: split on each leftmost non-overlapping
occurrence of two consecutive newline characters. -/
def splitNN : List Char → List (List Char)
  | [] => [[]]
  | '\n' :: '\n' :: rest => [] :: splitNN rest
  | c :: rest =>
    match splitNN rest with
    | [] => [[c]]
    | p :: ps => (c :: p) :: ps

/-- `TextAnalyzer.get_text_stats`. -/
def get_text_stats (text : String) : TextStats :=
  let words := get_words text
  let sentences := get_sentences text
  ⟨words.length, sentences.length, text.length, (removeSpaces text.data).length,
    ((splitNN text.data).filter (fun p => strip p ≠ [])).length,
    if sentences ≠ [] then rnd2 ((words.length : ℚ) / sentences.length) else 0⟩

/-- A stored document record (the dict built by `DocumentStore.add_document`). -/
structure Doc where
  id : String
  title : String
  content : String
  author : Option String
  category : Option String
  tags : List String
  created_at : String
deriving DecidableEq, Repr

/-- The `doc_data` argument of `DocumentStore.add_document` (optional keys
read with `.get`, tags defaulting to the empty list). -/
structure DocData where
  title : String
  content : String
  author : Option String := none
  category : Option String := none
  tags : List String := []
deriving DecidableEq, Repr

/-- `DocumentStore` state: the insertion-ordered id-to-document dict and the
`next_id` counter. -/
structure Store where
  documents : List (String × Doc)
  next_id : Nat
deriving DecidableEq, Repr

/-- Little-endian base-10 digits of `n`, with `n` itself as recursion
fuel (enough, since the argument shrinks by a factor of 10 each step). -/
def natDigitsAux : Nat → Nat → List Nat
  | 0, _ => []
  | _ + 1, 0 => []
  | fuel + 1, n + 1 => ((n + 1) % 10) :: natDigitsAux fuel ((n + 1) / 10)

/-- Python `str(n)` on the positive id counter: the base-10 digits of `n`,
most significant first. -/
def str10 (n : Nat) : String := ⟨((natDigitsAux n n).map Nat.digitChar).reverse⟩

/-- `DocumentStore.add_document`: allocate `str(next_id)`, store the record
(`created_at` is the caller-visible clock value `now`), bump the counter,
return the id. -/
def add_document (s : Store) (doc_data : DocData) (now : String) : String × Store :=
  let doc_id := str10 s.next_id
  (doc_id,
    { documents := s.documents ++ [(doc_id,
        { id := doc_id, title := doc_data.title, content := doc_data.content,
          author := doc_data.author, category := doc_data.category,
          tags := doc_data.tags, created_at := now })],
      next_id := s.next_id + 1 })

/-- `DocumentStore.get_document`: `self.documents.get(doc_id)`. -/
def get_document (s : Store) (doc_id : String) : Option Doc :=
  s.documents.lookup doc_id

/-- `DocumentStore.get_all_documents`: `list(self.documents.values())`. -/
def get_all_documents (s : Store) : List Doc := s.documents.map Prod.snd

/-- `DocumentStore.search_documents`: lowercase the query once, keep the
documents whose lowercased title, content, or some lowercased tag contains
it as a substring, in store iteration order. -/
def search_documents (s : Store) (query : String) : List Doc :=
  let q := (lowerStr query).data
  (s.documents.map Prod.snd).filter (fun doc =>
    decide (q <:+: (lowerStr doc.title).data) ||
    decide (q <:+: (lowerStr doc.content).data) ||
    doc.tags.any (fun tag => decide (q <:+: (lowerStr tag).data)))

/-- The 16 sample documents seeded by
`DocumentStore._initialize_sample_documents`. -/
def sample_docs : List DocData :=
  [{ title := "The Benefits of Renewable Energy",
     content := "Renewable energy sources like solar and wind power offer tremendous benefits for our planet. They reduce greenhouse gas emissions, create jobs, and provide sustainable solutions for future generations. Solar panels and wind turbines are becoming more efficient and cost-effective each year.",
     author := some "Dr. Sarah Johnson", category := some "Environment",
     tags := ["renewable", "energy", "sustainability"] },
   { title := "Introduction to Machine Learning",
     content := "Machine learning is a subset of artificial intelligence that enables computers to learn without being explicitly programmed. It involves algorithms that can identify patterns in data and make predictions. Popular techniques include supervised learning, unsupervised learning, and reinforcement learning.",
     author := some "Prof. Alex Chen", category := some "Technology",
     tags := ["machine learning", "AI", "algorithms"] },
   { title := "Healthy Eating Habits",
     content := "Maintaining a balanced diet is crucial for good health. Include plenty of fruits, vegetables, whole grains, and lean proteins in your meals. Limit processed foods, sugary drinks, and excessive amounts of saturated fats. Regular meal times and proper hydration are equally important.",
     author := some "Lisa Martinez", category := some "Health",
     tags := ["nutrition", "diet", "wellness"] },
   { title := "The Art of Photography",
     content := "Photography is both an art and a science. Understanding composition, lighting, and timing can dramatically improve your photos. The rule of thirds, leading lines, and proper exposure are fundamental concepts every photographer should master.",
     author := some "Michael Thompson", category := some "Arts",
     tags := ["photography", "composition", "art"] },
   { title := "Climate Change Impact",
     content := "Climate change poses significant challenges to our planet. Rising temperatures, melting ice caps, and extreme weather events are becoming more frequent. We must take immediate action to reduce carbon emissions and transition to sustainable practices.",
     author := some "Dr. Emma Wilson", category := some "Environment",
     tags := ["climate", "global warming", "environment"] },
   { title := "Financial Planning for Beginners",
     content := "Starting your financial journey can seem overwhelming, but it doesn\x27t have to be. Begin with creating a budget, building an emergency fund, and understanding the basics of investing. Compound interest is your friend when you start early.",
     author := some "Robert Davis", category := some "Finance",
     tags := ["finance", "budgeting", "investing"] },
   { title := "The Future of Transportation",
     content := "Transportation is evolving rapidly with electric vehicles, autonomous driving, and hyperloop technology. These innovations promise to reduce emissions, improve safety, and revolutionize how we move people and goods.",
     author := some "Jennifer Lee", category := some "Technology",
     tags := ["transportation", "electric vehicles", "innovation"] },
   { title := "Effective Team Communication",
     content := "Clear communication is the foundation of successful teams. Active listening, regular feedback, and open dialogue foster collaboration. Use appropriate communication channels and be respectful of different perspectives and working styles.",
     author := some "David Park", category := some "Business",
     tags := ["communication", "teamwork", "leadership"] },
   { title := "Gardening for Beginners",
     content := "Starting a garden can be incredibly rewarding. Choose plants suitable for your climate and soil type. Proper watering, sunlight, and fertilization are essential for healthy plant growth. Start small and expand your garden as you gain experience.",
     author := some "Mary Rodriguez", category := some "Lifestyle",
     tags := ["gardening", "plants", "outdoor"] },
   { title := "The Science of Sleep",
     content := "Sleep is essential for physical and mental health. During sleep, our bodies repair tissues, consolidate memories, and regulate hormones. Most adults need 7-9 hours of quality sleep per night for optimal functioning.",
     author := some "Dr. James Williams", category := some "Health",
     tags := ["sleep", "health", "wellness"] },
   { title := "Digital Marketing Strategies",
     content := "Digital marketing has transformed how businesses reach customers. Social media, content marketing, and search engine optimization are key components. Understanding your target audience and measuring campaign performance are crucial for success.",
     author := some "Amanda Clark", category := some "Business",
     tags := ["marketing", "digital", "social media"] },
   { title := "Mindfulness and Meditation",
     content := "Mindfulness practices can reduce stress and improve mental clarity. Regular meditation, even for just 10 minutes daily, can have profound benefits. Focus on breathing, body awareness, and present-moment attention.",
     author := some "Sarah Kumar", category := some "Wellness",
     tags := ["mindfulness", "meditation", "stress relief"] },
   { title := "Sustainable Living Tips",
     content := "Small changes in daily habits can make a big environmental impact. Reduce waste, conserve energy, choose eco-friendly products, and support sustainable businesses. Every action contributes to a healthier planet.",
     author := some "Green Living Team", category := some "Environment",
     tags := ["sustainability", "eco-friendly", "green living"] },
   { title := "The Power of Reading",
     content := "Reading books expands knowledge, improves vocabulary, and enhances critical thinking skills. Whether fiction or non-fiction, books provide entertainment, education, and personal growth opportunities. Make reading a daily habit.",
     author := some "Library Association", category := some "Education",
     tags := ["reading", "books", "education"] },
   { title := "Coding Best Practices",
     content := "Writing clean, maintainable code is essential for software development. Use meaningful variable names, write comments, follow coding standards, and test your code regularly. Code review and refactoring improve code quality over time.",
     author := some "Tech Team", category := some "Technology",
     tags := ["coding", "programming", "best practices"] },
   { title := "Travel Safety Tips",
     content := "Traveling safely requires preparation and awareness. Research your destination, keep copies of important documents, stay alert in crowded areas, and trust your instincts. Travel insurance provides additional peace of mind.",
     author := some "Travel Safety Council", category := some "Travel",
     tags := ["travel", "safety", "tips"] }]

/-- The empty store before seeding (`documents = {}`, `next_id = 1`). -/
def emptyStore : Store := { documents := [], next_id := 1 }

/-- Run `add_document` for each data/timestamp pair in order. -/
def addMany (s : Store) (items : List (DocData × String)) : Store :=
  items.foldl (fun st it => (add_document st it.1 it.2).2) s

/-- `DocumentStore.__init__` followed by `_initialize_sample_documents`:
seed the 16 sample documents through the ordinary add path.  `clock` gives
the wall-clock timestamp observed by the k-th seed add. -/
def initStore (clock : Nat → String) : Store :=
  addMany emptyStore (sample_docs.enum.map (fun p => (p.2, clock p.1)))

/-- The states a `DocumentStore` can reach: the freshly initialized store,
followed by any number of user adds.  The index counts the user adds. -/
inductive Reachable : Nat → Store → Prop
  | init (clock : Nat → String) : Reachable 0 (initStore clock)
  | step {n : Nat} {s : Store} (d : DocData) (now : String) :
      Reachable n s → Reachable (n + 1) (add_document s d now).2

/-- Result of the `analyze_document` tool: either the not-found error
payload or the combined analysis record. -/
inductive AnalyzeResult where
  | error (msg : String)
  | ok (document_id title : String) (author category : Option String)
      (sentiment : SentimentResult) (keywords : List Keyword)
      (readability : ReadabilityResult) (stats : TextStats) (timestamp : String)
deriving DecidableEq, Repr

/-- The `analyze_document` tool: look the document up, return the error
payload if absent, otherwise analyze its content.  The store is returned
unchanged alongside the result (the handler never mutates it). -/
def analyze_document (s : Store) (document_id : String) (now : String) :
    AnalyzeResult × Store :=
  match get_document s document_id with
  | none => (.error ("Document with ID " ++ document_id ++ " not found"), s)
  | some document =>
    let text := document.content
    (.ok document_id document.title document.author document.category
      (analyze_sentiment text) (extract_keywords text 10)
      (calculate_readability text) (get_text_stats text) now, s)


/-- The expected id sequence after `k` adds: `["1", "2", ..., str(k)]`. -/
def idList : Nat → List String
  | 0 => []
  | k + 1 => idList k ++ [str10 (k + 1)]

/-- The numeric value of a decimal digit string (inverse of `str10`). -/
def decValue (s : String) : Nat :=
  Nat.ofDigits 10 ((s.data.map (fun c => c.toNat - 48)).reverse)

/-! ## Lemmas about the scan loop of `count_syllables` -/

/-- The stateful vowel-group scan equals a per-position count: a position
counts when it holds a vowel-class character and its predecessor flag
(initially `prev`) is not vowel-class. -/
theorem syllAux_eq_countP (l : List Char) (prev : Bool) :
    syllAux l prev =
      (l.zip (prev :: l.map (fun c => vowels.contains c))).countP
        (fun p => vowels.contains p.1 && !p.2) := by
  induction l generalizing prev with
  | nil => rfl
  | cons c cs ih =>
    simp only [syllAux, List.map_cons, List.zip_cons_cons, List.countP_cons]
    by_cases hc : vowels.contains c = true
    · rw [if_pos hc, hc, ih true]
      cases prev <;> simp
      omega
    · rw [if_neg hc, ih false]
      rw [Bool.not_eq_true] at hc
      rw [hc]
      simp

/-- Python `text.replace(' ', '')` removes exactly the literal spaces. -/
theorem removeSpaces_eq_filter (l : List Char) :
    removeSpaces l = l.filter (fun c => c ≠ ' ') := by
  induction l with
  | nil => rfl
  | cons c cs ih =>
    simp only [removeSpaces, List.filter_cons]
    by_cases hc : c = ' '
    · simp [hc, ih]
    · simp [hc, ih]

/-! ## C8: the syllable estimator -/

/-- C8: for every word, `count_syllables` lowercases it, counts positions
holding a vowel-class character (`a,e,i,o,u,y`) whose predecessor is not
vowel-class, subtracts one when the lowered word ends in `e` and the count
exceeds 1, and floors the result at 1; `count_syllables "cake" = 1` and
`count_syllables "a" = 1`. -/
theorem count_syllables_spec (w : String) :
    count_syllables w =
      (let word := w.data.map Char.toLower
       let n := (word.zip (false :: word.map
            (fun c => (['a', 'e', 'i', 'o', 'u', 'y'] : List Char).contains c))).countP
          (fun p => (['a', 'e', 'i', 'o', 'u', 'y'] : List Char).contains p.1 && !p.2)
       max 1 (if word.getLast? = some 'e' ∧ 1 < n then n - 1 else n)) ∧
    count_syllables "cake" = 1 ∧ count_syllables "a" = 1 := by
  refine ⟨?_, by decide, by decide⟩
  show count_syllables w = max 1 _
  rw [count_syllables]
  rw [syllAux_eq_countP]
  rfl

/-! ## C9: basic text statistics -/

/-- C9: `get_text_stats` reports the raw character count, the length after
removing only literal spaces (tabs and newlines still counted), the number
of blank-line-separated blocks that are non-empty after trimming, and
`word_count/sentence_count` rounded to 2 decimals (0 with no sentences). -/
theorem get_text_stats_spec (text : String) :
    (get_text_stats text).character_count = text.length ∧
    (get_text_stats text).character_count_no_spaces
        = (text.data.filter (fun c => c ≠ ' ')).length ∧
    (get_text_stats text).paragraph_count
        = ((splitNN text.data).filter (fun p => strip p ≠ [])).length ∧
    (get_sentences text = [] → (get_text_stats text).avg_words_per_sentence = 0) ∧
    (get_sentences text ≠ [] →
      (get_text_stats text).avg_words_per_sentence
        = rnd2 (((get_words text).length : ℚ) / ((get_sentences text).length : ℚ))) := by
  have havg : (get_text_stats text).avg_words_per_sentence =
      if get_sentences text ≠ [] then
        rnd2 (((get_words text).length : ℚ) / ((get_sentences text).length : ℚ))
      else 0 := rfl
  refine ⟨rfl, ?_, rfl, ?_, ?_⟩
  · show (removeSpaces text.data).length = _
    rw [removeSpaces_eq_filter]
  · intro hs
    rw [havg, if_neg (by simp [hs])]
  · intro hs
    rw [havg, if_pos hs]

/-- Witness for C9 at a concrete text containing tabs, newlines and three
sentences. -/
theorem get_text_stats_spec_witness :
    get_sentences "a b.\n\nc d! e  \t f" ≠ [] ∧
    ((get_text_stats "a b.\n\nc d! e  \t f").character_count
        = ("a b.\n\nc d! e  \t f" : String).length ∧
     (get_text_stats "a b.\n\nc d! e  \t f").character_count_no_spaces
        = (("a b.\n\nc d! e  \t f" : String).data.filter (fun c => c ≠ ' ')).length ∧
     (get_text_stats "a b.\n\nc d! e  \t f").paragraph_count
        = ((splitNN ("a b.\n\nc d! e  \t f" : String).data).filter
            (fun p => strip p ≠ [])).length ∧
     (get_sentences "a b.\n\nc d! e  \t f" = [] →
       (get_text_stats "a b.\n\nc d! e  \t f").avg_words_per_sentence = 0) ∧
     (get_sentences "a b.\n\nc d! e  \t f" ≠ [] →
       (get_text_stats "a b.\n\nc d! e  \t f").avg_words_per_sentence
        = rnd2 (((get_words "a b.\n\nc d! e  \t f").length : ℚ) /
            ((get_sentences "a b.\n\nc d! e  \t f").length : ℚ)))) :=
  ⟨by decide, get_text_stats_spec "a b.\n\nc d! e  \t f"⟩

/-! ## Evaluating the rounding function -/

/-- `rhe` at a value whose fractional part is below one half. -/
theorem rhe_eq_floor (q : ℚ) (z : ℤ) (hle : (z : ℚ) ≤ q) (hlt : q < z + 1)
    (hfrac : q - z < 1/2) : rhe q = z := by
  have hf : ⌊q⌋ = z := by
    rw [Int.floor_eq_iff]
    exact ⟨hle, by exact_mod_cast hlt⟩
  rw [rhe, hf, if_pos (by exact_mod_cast hfrac)]

/-- `rhe` at a value whose fractional part is above one half. -/
theorem rhe_eq_ceil (q : ℚ) (z : ℤ) (hle : (z : ℚ) ≤ q) (hlt : q < z + 1)
    (hfrac : 1/2 < q - z) : rhe q = z + 1 := by
  have hf : ⌊q⌋ = z := by
    rw [Int.floor_eq_iff]
    exact ⟨hle, by exact_mod_cast hlt⟩
  rw [rhe, hf]
  rw [if_neg (by linarith), if_pos (by exact_mod_cast hfrac)]

/-! ## C2: sentiment analysis -/

/-- C2: with at least one token, `analyze_sentiment` labels "positive" with
confidence `positive_score` when `positive_score > negative_score`,
"negative" with confidence `negative_score` in the opposite case, and
otherwise "neutral" with confidence 0.5 (also when the scores are equal and
nonzero); the neutral score is `1 - positive_score - negative_score`
unclamped, and all scores and the confidence are rounded to 3 decimals. -/
theorem analyze_sentiment_spec (text : String) (ps ns : ℚ)
    (h : get_words text ≠ [])
    (hps : ps = ((get_words text).countP (fun w => POSITIVE_WORDS.contains w) : ℚ) /
      ((get_words text).length : ℚ))
    (hns : ns = ((get_words text).countP (fun w => NEGATIVE_WORDS.contains w) : ℚ) /
      ((get_words text).length : ℚ)) :
    (ns < ps → (analyze_sentiment text).sentiment = "positive" ∧
      (analyze_sentiment text).confidence = rnd3 ps) ∧
    (ps < ns → (analyze_sentiment text).sentiment = "negative" ∧
      (analyze_sentiment text).confidence = rnd3 ns) ∧
    (ps = ns → (analyze_sentiment text).sentiment = "neutral" ∧
      (analyze_sentiment text).confidence = 1/2) ∧
    (analyze_sentiment text).positive = rnd3 ps ∧
    (analyze_sentiment text).negative = rnd3 ns ∧
    (analyze_sentiment text).neutral = rnd3 (1 - ps - ns) := by
  subst hps hns
  have h0 : ¬((get_words text).length = 0) := by
    simpa [List.length_eq_zero] using h
  have hhalf : rnd3 (1/2) = 1/2 := by
    rw [rnd3, rhe_eq_floor (1/2 * 1000) 500 (by norm_num) (by norm_num) (by norm_num)]
    norm_num
  simp only [analyze_sentiment, h0, if_false]
  split_ifs with h1 h2
  · exact ⟨fun _ => ⟨rfl, rfl⟩, fun hx => absurd hx (lt_asymm h1),
      fun he => absurd he (ne_of_gt h1), rfl, rfl, rfl⟩
  · exact ⟨fun hx => absurd hx (lt_asymm h2), fun _ => ⟨rfl, rfl⟩,
      fun he => absurd he (ne_of_lt h2), rfl, rfl, rfl⟩
  · exact ⟨fun hx => absurd hx h1, fun hx => absurd hx h2,
      fun _ => ⟨rfl, hhalf⟩, rfl, rfl, rfl⟩

/-- Witness for C2 at `"good bad"`: one positive and one negative word, so
both scores are the nonzero value 1/2 and the result is neutral with
confidence 0.5. -/
theorem analyze_sentiment_spec_witness :
    get_words "good bad" ≠ [] ∧
    ((1/2 : ℚ) = ((get_words "good bad").countP
        (fun w => POSITIVE_WORDS.contains w) : ℚ) /
      ((get_words "good bad").length : ℚ)) ∧
    ((1/2 : ℚ) = ((get_words "good bad").countP
        (fun w => NEGATIVE_WORDS.contains w) : ℚ) /
      ((get_words "good bad").length : ℚ)) ∧
    (((1:ℚ)/2 < 1/2 → (analyze_sentiment "good bad").sentiment = "positive" ∧
        (analyze_sentiment "good bad").confidence = rnd3 (1/2)) ∧
      ((1:ℚ)/2 < 1/2 → (analyze_sentiment "good bad").sentiment = "negative" ∧
        (analyze_sentiment "good bad").confidence = rnd3 (1/2)) ∧
      ((1:ℚ)/2 = 1/2 → (analyze_sentiment "good bad").sentiment = "neutral" ∧
        (analyze_sentiment "good bad").confidence = 1/2) ∧
      (analyze_sentiment "good bad").positive = rnd3 (1/2) ∧
      (analyze_sentiment "good bad").negative = rnd3 (1/2) ∧
      (analyze_sentiment "good bad").neutral = rnd3 (1 - 1/2 - 1/2)) := by
  have e1 : (get_words "good bad").countP (fun w => POSITIVE_WORDS.contains w) = 1 := by
    decide
  have e2 : (get_words "good bad").countP (fun w => NEGATIVE_WORDS.contains w) = 1 := by
    decide
  have e3 : (get_words "good bad").length = 2 := by decide
  have hps : (1/2 : ℚ) = ((get_words "good bad").countP
      (fun w => POSITIVE_WORDS.contains w) : ℚ) / ((get_words "good bad").length : ℚ) := by
    rw [e1, e3]; norm_num
  have hns : (1/2 : ℚ) = ((get_words "good bad").countP
      (fun w => NEGATIVE_WORDS.contains w) : ℚ) / ((get_words "good bad").length : ℚ) := by
    rw [e2, e3]; norm_num
  exact ⟨by decide, hps, hns,
    analyze_sentiment_spec "good bad" (1/2) (1/2) (by decide) hps hns⟩

/-! ## Permutation and counting lemmas for keyword extraction -/

/-- Stable insertion produces a permutation of the cons. -/
theorem insertCountDesc_perm (x : String × Nat) (l : List (String × Nat)) :
    List.Perm (insertCountDesc x l) (x :: l) := by
  induction l with
  | nil => exact List.Perm.refl _
  | cons y ys ih =>
    rw [insertCountDesc]
    split_ifs
    · exact List.Perm.refl _
    · exact (List.Perm.cons y ih).trans (List.Perm.swap x y ys)

/-- The stable sort permutes its input. -/
theorem sortCountDesc_perm (l : List (String × Nat)) : List.Perm (sortCountDesc l) l := by
  induction l with
  | nil => exact List.Perm.refl _
  | cons x xs ih =>
    exact (insertCountDesc_perm x (sortCountDesc xs)).trans (List.Perm.cons x ih)

/-- `dedupFirst` keeps exactly the elements of the input. -/
theorem mem_dedupFirst {a : String} {l : List String} : a ∈ dedupFirst l ↔ a ∈ l := by
  induction l with
  | nil => simp [dedupFirst]
  | cons w ws ih =>
    by_cases hw : a = w
    · subst hw; simp [dedupFirst]
    · simp [dedupFirst, List.mem_filter, ih, hw]

/-- `dedupFirst` has no duplicates. -/
theorem nodup_dedupFirst (l : List String) : (dedupFirst l).Nodup := by
  induction l with
  | nil => simp [dedupFirst]
  | cons w ws ih =>
    rw [dedupFirst, List.nodup_cons]
    refine ⟨?_, ih.filter _⟩
    intro hmem
    have := (List.mem_filter.mp hmem).2
    simp at this

/-- The multiplicities recorded by `counterItems` add up to the length of
the counted list. -/
theorem sum_counterItems (l : List String) :
    ((counterItems l).map Prod.snd).sum = l.length := by
  rw [counterItems, List.map_map]
  have he : (Prod.snd ∘ fun w => (w, l.count w)) = fun w => l.count w := rfl
  rw [he, ← List.sum_toFinset _ (nodup_dedupFirst l)]
  have ht : (dedupFirst l).toFinset = l.toFinset := by
    ext a; simp [List.mem_toFinset, mem_dedupFirst]
  rw [ht, List.sum_toFinset_count_eq_length]

/-- A prefix of a list of naturals has a smaller sum. -/
theorem sum_take_le_nat (l : List ℕ) (n : Nat) : (l.take n).sum ≤ l.sum := by
  have := List.sum_take_add_sum_drop l n
  omega

/-! ## C1: relevance values summed over one extract call -/

/-- C1 (amended): the frequencies of the entries returned by one
`extract_keywords` call sum to at most the total filtered-token count, so
the unrounded relevance values `frequency / total` sum to at most 1.  (The
reported relevance is rounded to 3 decimals, and the rounded values can sum
to slightly more than 1 — see the counterexample theorem.) -/
theorem extract_keywords_unrounded_relevance_sum_le_one (text : String) (limit : Int) :
    ((extract_keywords text limit).map (fun k => k.frequency)).sum
      ≤ (filtered_words text).length ∧
    (0 < (filtered_words text).length →
      ((extract_keywords text limit).map
        (fun k => (k.frequency : ℚ) / ((filtered_words text).length : ℚ))).sum ≤ 1) := by
  have h1 : ((extract_keywords text limit).map (fun k => k.frequency))
      = (((sortCountDesc (counterItems (filtered_words text))).map Prod.snd).take
          limit.toNat) := by
    simp only [extract_keywords, most_common, List.map_map, List.map_take]
    rfl
  have hle : ((extract_keywords text limit).map (fun k => k.frequency)).sum
      ≤ (filtered_words text).length := by
    rw [h1]
    calc (((sortCountDesc (counterItems (filtered_words text))).map Prod.snd).take
          limit.toNat).sum
        ≤ ((sortCountDesc (counterItems (filtered_words text))).map Prod.snd).sum :=
          sum_take_le_nat _ _
      _ = ((counterItems (filtered_words text)).map Prod.snd).sum :=
          (List.Perm.map Prod.snd (sortCountDesc_perm _)).sum_eq
      _ = (filtered_words text).length := sum_counterItems _
  refine ⟨hle, fun hpos => ?_⟩
  have hT : (0 : ℚ) < ((filtered_words text).length : ℚ) := by exact_mod_cast hpos
  have hdiv : ((extract_keywords text limit).map
      (fun k => (k.frequency : ℚ) / ((filtered_words text).length : ℚ))).sum
      = ((((extract_keywords text limit).map (fun k => k.frequency)).sum : ℕ) : ℚ) /
        ((filtered_words text).length : ℚ) := by
    rw [Nat.cast_list_sum, List.map_map]
    simp only [div_eq_mul_inv, Function.comp_def]
    rw [List.sum_map_mul_right]
  rw [hdiv, div_le_one hT]
  exact_mod_cast hle

/-- Witness for the amended C1 at a concrete text and limit. -/
theorem extract_keywords_unrounded_relevance_sum_le_one_witness :
    0 < (filtered_words "alpha bravo charlie delta echo foxtrot").length ∧
    (((extract_keywords "alpha bravo charlie delta echo foxtrot" 10).map
        (fun k => k.frequency)).sum
      ≤ (filtered_words "alpha bravo charlie delta echo foxtrot").length ∧
     (0 < (filtered_words "alpha bravo charlie delta echo foxtrot").length →
      ((extract_keywords "alpha bravo charlie delta echo foxtrot" 10).map
        (fun k => (k.frequency : ℚ) /
          ((filtered_words "alpha bravo charlie delta echo foxtrot").length : ℚ))).sum
        ≤ 1)) :=
  ⟨by decide,
    extract_keywords_unrounded_relevance_sum_le_one
      "alpha bravo charlie delta echo foxtrot" 10⟩

/-- C1 counterexample: on six distinct keywords of frequency 1 each, every
reported relevance is `round(1/6, 3) = 0.167`, and the six reported values
sum to 1.002 > 1, refuting the claim that the relevance values of a single
extract call always sum to at most 1. -/
theorem extract_relevance_rounded_sum_gt_one :
    ¬ (((extract_keywords "alpha bravo charlie delta echo foxtrot" 10).map
        (fun k => k.relevance)).sum ≤ 1) := by
  have hmc : most_common
      (counterItems (filtered_words "alpha bravo charlie delta echo foxtrot")) 10
      = [("alpha", 1), ("bravo", 1), ("charlie", 1), ("delta", 1), ("echo", 1),
         ("foxtrot", 1)] := by decide
  have hlen : (filtered_words "alpha bravo charlie delta echo foxtrot").length = 6 := by
    decide
  have hr : rnd3 ((1 : ℚ)/6) = 167/1000 := by
    rw [rnd3, rhe_eq_ceil (1/6 * 1000) 166 (by norm_num) (by norm_num) (by norm_num)]
    norm_num
  simp only [extract_keywords, hmc, hlen, keyword_entry, List.map_cons, List.map_nil]
  norm_num [hr]

/-- The elements of `dedupFirst l` occur in strictly increasing order of
their first occurrence in `l`. -/
theorem pairwise_indexOf_dedupFirst (l : List String) :
    (dedupFirst l).Pairwise (fun a b => l.indexOf a < l.indexOf b) := by
  induction l with
  | nil => simp [dedupFirst]
  | cons w ws ih =>
    rw [dedupFirst, List.pairwise_cons]
    constructor
    · intro b hb
      have hbne : b ≠ w := by simpa using (List.mem_filter.mp hb).2
      rw [List.indexOf_cons_self, List.indexOf_cons_ne _ (Ne.symm hbne)]
      exact Nat.succ_pos _
    · have hp : ((dedupFirst ws).filter (fun v => v ≠ w)).Pairwise
          (fun a b => ws.indexOf a < ws.indexOf b) :=
        List.Pairwise.sublist (List.filter_sublist _) ih
      refine hp.imp_of_mem ?_
      intro a b ha hb hab
      have hane : a ≠ w := by simpa using (List.mem_filter.mp ha).2
      have hbne : b ≠ w := by simpa using (List.mem_filter.mp hb).2
      rw [List.indexOf_cons_ne _ (Ne.symm hane), List.indexOf_cons_ne _ (Ne.symm hbne)]
      omega

/-- Inserting into a stably count-sorted list preserves the sort order:
strictly descending counts, with the original relation `R` holding along
ties. -/
theorem insertCountDesc_pairwise {R : String × Nat → String × Nat → Prop}
    {x : String × Nat} {ys : List (String × Nat)}
    (hys : ys.Pairwise (fun a b => b.2 < a.2 ∨ (a.2 = b.2 ∧ R a b)))
    (hx : ∀ y ∈ ys, R x y) :
    (insertCountDesc x ys).Pairwise (fun a b => b.2 < a.2 ∨ (a.2 = b.2 ∧ R a b)) := by
  induction ys with
  | nil => simp [insertCountDesc]
  | cons y ys ih =>
    rw [insertCountDesc]
    split_ifs with hc
    · rw [List.pairwise_cons]
      refine ⟨?_, hys⟩
      intro z hz
      rcases List.mem_cons.mp hz with rfl | hz'
      · rcases Nat.lt_or_ge z.2 x.2 with h | h
        · exact Or.inl h
        · exact Or.inr ⟨Nat.le_antisymm h hc, hx z (List.mem_cons_self z ys)⟩
      · have hyz := (List.pairwise_cons.mp hys).1 z hz'
        rcases hyz with h | h
        · exact Or.inl (Nat.lt_of_lt_of_le h hc)
        · rcases Nat.lt_or_ge z.2 x.2 with h2 | h2
          · exact Or.inl h2
          · refine Or.inr ⟨Nat.le_antisymm h2 ?_, hx z (List.mem_cons_of_mem y hz')⟩
            omega
    · have hx2 : x.2 < y.2 := by omega
      rw [List.pairwise_cons]
      constructor
      · intro z hz
        have hz' : z = x ∨ z ∈ ys := by
          have := (insertCountDesc_perm x ys).mem_iff.mp hz
          simpa using this
        rcases hz' with rfl | hz'
        · exact Or.inl hx2
        · exact (List.pairwise_cons.mp hys).1 z hz'
      · exact ih (List.pairwise_cons.mp hys).2
          (fun z hz => hx z (List.mem_cons_of_mem y hz))

/-- The stable sort of an `R`-ordered list is ordered by strictly
descending count with ties still in `R`-order. -/
theorem sortCountDesc_pairwise {R : String × Nat → String × Nat → Prop}
    {l : List (String × Nat)} (hl : l.Pairwise R) :
    (sortCountDesc l).Pairwise (fun a b => b.2 < a.2 ∨ (a.2 = b.2 ∧ R a b)) := by
  induction l with
  | nil => simp [sortCountDesc]
  | cons x xs ih =>
    have hx : ∀ y ∈ sortCountDesc xs, R x y := by
      intro y hy
      exact (List.pairwise_cons.mp hl).1 y ((sortCountDesc_perm xs).mem_iff.mp hy)
    exact insertCountDesc_pairwise (ih (List.pairwise_cons.mp hl).2) hx

/-- `Counter` items are listed in strictly increasing first-occurrence
order. -/
theorem counterItems_pairwise (l : List String) :
    (counterItems l).Pairwise (fun a b => l.indexOf a.1 < l.indexOf b.1) := by
  rw [counterItems]
  exact (pairwise_indexOf_dedupFirst l).map _ (fun a b h => h)

/-! ## C3: keyword extraction filtering, ranking and truncation -/

/-- C3: the ranked keyword list contains exactly the normalized tokens
that are not stop words and are longer than 2 characters; each carries its
frequency in the filtered token list; the ranking is by strictly
descending frequency with ties in first-encountered order; and
`extract_keywords` returns its first `limit` entries, all of them when
`limit` exceeds the number of distinct kept tokens, and none when
`limit ≤ 0`. -/
theorem extract_keywords_spec (text : String) (limit : Int) :
    (∀ w : String, w ∈ (ranked_keywords text).map Prod.fst ↔
      (w ∈ get_words text ∧ w ∉ STOP_WORDS ∧ 2 < w.length)) ∧
    (∀ p ∈ ranked_keywords text, p.2 = (filtered_words text).count p.1) ∧
    ((ranked_keywords text).Pairwise (fun a b =>
      b.2 < a.2 ∨ (a.2 = b.2 ∧
        (filtered_words text).indexOf a.1 < (filtered_words text).indexOf b.1))) ∧
    extract_keywords text limit =
      ((ranked_keywords text).map
        (keyword_entry (filtered_words text).length)).take limit.toNat ∧
    (limit ≤ 0 → extract_keywords text limit = []) ∧
    (((ranked_keywords text).length : Int) ≤ limit →
      extract_keywords text limit =
        (ranked_keywords text).map (keyword_entry (filtered_words text).length)) := by
  refine ⟨?_, ?_, ?_, ?_, ?_, ?_⟩
  · intro w
    rw [ranked_keywords,
      ((sortCountDesc_perm (counterItems (filtered_words text))).map Prod.fst).mem_iff,
      counterItems, List.map_map]
    have hid : (Prod.fst ∘ fun v => (v, (filtered_words text).count v)) = id := rfl
    rw [hid, List.map_id, mem_dedupFirst, filtered_words, List.mem_filter]
    simp
  · intro p hp
    have hp' : p ∈ counterItems (filtered_words text) :=
      (sortCountDesc_perm _).mem_iff.mp hp
    rw [counterItems] at hp'
    obtain ⟨v, hv, rfl⟩ := List.mem_map.mp hp'
    rfl
  · exact sortCountDesc_pairwise (counterItems_pairwise _)
  · simp only [extract_keywords, most_common, ranked_keywords]
    rw [List.map_take]
  · intro h
    simp only [extract_keywords, most_common, Int.toNat_of_nonpos h, List.take_zero,
      List.map_nil]
  · intro h
    have hlen : (sortCountDesc (counterItems (filtered_words text))).length
        ≤ limit.toNat := by
      rw [show (sortCountDesc (counterItems (filtered_words text))).length
          = (ranked_keywords text).length from rfl]
      omega
    simp only [extract_keywords, most_common, ranked_keywords]
    rw [List.take_of_length_le hlen]

/-- Witness for C3 at a concrete text and a limit exceeding the number of
distinct kept tokens. -/
theorem extract_keywords_spec_witness :
    ((ranked_keywords "solar wind solar power wind solar").length : Int) ≤ 10 ∧
    ((∀ w : String, w ∈ (ranked_keywords "solar wind solar power wind solar").map
        Prod.fst ↔
      (w ∈ get_words "solar wind solar power wind solar" ∧ w ∉ STOP_WORDS ∧
        2 < w.length)) ∧
    (∀ p ∈ ranked_keywords "solar wind solar power wind solar",
      p.2 = (filtered_words "solar wind solar power wind solar").count p.1) ∧
    ((ranked_keywords "solar wind solar power wind solar").Pairwise (fun a b =>
      b.2 < a.2 ∨ (a.2 = b.2 ∧
        (filtered_words "solar wind solar power wind solar").indexOf a.1 <
          (filtered_words "solar wind solar power wind solar").indexOf b.1))) ∧
    extract_keywords "solar wind solar power wind solar" 10 =
      ((ranked_keywords "solar wind solar power wind solar").map
        (keyword_entry (filtered_words "solar wind solar power wind solar").length)).take
          (10 : Int).toNat ∧
    ((10 : Int) ≤ 0 → extract_keywords "solar wind solar power wind solar" 10 = []) ∧
    (((ranked_keywords "solar wind solar power wind solar").length : Int) ≤ 10 →
      extract_keywords "solar wind solar power wind solar" 10 =
        (ranked_keywords "solar wind solar power wind solar").map
          (keyword_entry (filtered_words "solar wind solar power wind solar").length))) :=
  ⟨by decide, extract_keywords_spec "solar wind solar power wind solar" 10⟩

/-! ## Bounds on the rounding function -/

/-- Rounding never goes below the floor. -/
theorem floor_le_rhe (q : ℚ) : ⌊q⌋ ≤ rhe q := by
  rw [rhe]; split_ifs <;> omega

/-- Rounding a value bounded by an integer stays bounded by it. -/
theorem rhe_le_of_le_int (q : ℚ) (m : ℤ) (h : q ≤ m) : rhe q ≤ m := by
  have hf : ⌊q⌋ ≤ m := by
    have := Int.floor_le_floor h
    rwa [Int.floor_intCast] at this
  have hkey : ¬(q - ⌊q⌋ < 1/2) → ⌊q⌋ < m := by
    intro h1
    rcases lt_or_eq_of_le hf with hl | he
    · exact hl
    · exfalso
      have hq : (⌊q⌋ : ℚ) + 1/2 ≤ q := by linarith [not_lt.mp h1]
      rw [he] at hq
      linarith
  rw [rhe]; split_ifs with h1 h2 h3
  · exact hf
  · have := hkey h1; omega
  · exact hf
  · have := hkey h1; omega

/-- Rounding to 2 decimals keeps a value of `[0, 100]` inside `[0, 100]`. -/
theorem rnd2_bounds (q : ℚ) (h0 : 0 ≤ q) (h100 : q ≤ 100) :
    0 ≤ rnd2 q ∧ rnd2 q ≤ 100 := by
  have hlo : (0 : ℤ) ≤ rhe (q * 100) := by
    have h1 : (0 : ℤ) ≤ ⌊q * 100⌋ := by
      rw [Int.le_floor]
      push_cast
      positivity
    exact le_trans h1 (floor_le_rhe _)
  have hhi : rhe (q * 100) ≤ 10000 := by
    apply rhe_le_of_le_int
    push_cast
    linarith
  constructor
  · rw [rnd2]
    apply div_nonneg _ (by norm_num : (0:ℚ) ≤ 100)
    exact_mod_cast hlo
  · rw [rnd2]
    rw [div_le_iff₀ (by norm_num : (0:ℚ) < 100)]
    have : ((rhe (q * 100) : ℤ) : ℚ) ≤ ((10000 : ℤ) : ℚ) := by exact_mod_cast hhi
    push_cast at this
    linarith

/-- The difficulty label as a function of the clamped Flesch score, bucket
by bucket at the thresholds 90/80/70/60/50/30. -/
theorem difficultyOf_spec (F : ℚ) :
    (90 ≤ F → difficultyOf F = "very easy") ∧
    (80 ≤ F → F < 90 → difficultyOf F = "easy") ∧
    (70 ≤ F → F < 80 → difficultyOf F = "fairly easy") ∧
    (60 ≤ F → F < 70 → difficultyOf F = "standard") ∧
    (50 ≤ F → F < 60 → difficultyOf F = "fairly difficult") ∧
    (30 ≤ F → F < 50 → difficultyOf F = "difficult") ∧
    (F < 30 → difficultyOf F = "very difficult") := by
  refine ⟨fun h => ?_, fun h h2 => ?_, fun h h2 => ?_, fun h h2 => ?_, fun h h2 => ?_,
    fun h h2 => ?_, fun h => ?_⟩ <;>
  · rw [difficultyOf]
    split_ifs <;> first | rfl | linarith

/-- The reported reading ease never leaves `[0, 100]` (also on the
all-zero branch). -/
theorem flesch_reading_ease_in_range (t : String) :
    0 ≤ (calculate_readability t).flesch_reading_ease ∧
    (calculate_readability t).flesch_reading_ease ≤ 100 := by
  by_cases hc : get_sentences t = [] ∨ get_words t = []
  · simp only [calculate_readability, if_pos hc]
    norm_num
  · simp only [calculate_readability, if_neg hc]
    apply rnd2_bounds
    · exact le_max_left _ _
    · exact max_le (by norm_num) (min_le_left _ _)

/-- A one-sentence, ten-syllable-word text drives the reported grade level
above 100 (no upper clamp). -/
theorem grade_level_above_100 :
    100 < (calculate_readability "abababababababababab.").flesch_grade_level := by
  have hw : get_words "abababababababababab." = ["abababababababababab"] := by decide
  have hs : get_sentences "abababababababababab." = ["abababababababababab"] := by decide
  have hsyl : ((get_words "abababababababababab.").map count_syllables).sum = 10 := by
    decide
  have hc : ¬(get_sentences "abababababababababab." = [] ∨
      get_words "abababababababababab." = []) := by decide
  simp only [calculate_readability, if_neg hc]
  rw [hw] at hsyl
  rw [hw, hs]
  simp only [List.length_cons, List.length_nil, hsyl]
  have key : ∀ x : ℚ, x = 514/5 → 100 < rnd2 (max 0 x) := by
    intro x hx
    subst hx
    rw [max_eq_right (by norm_num : (0:ℚ) ≤ 514/5)]
    rw [rnd2, rhe_eq_floor (514/5 * 100) 10280 (by norm_num) (by norm_num) (by norm_num)]
    norm_num
  apply key
  norm_num

/-! ## C7: readability formulas -/

/-- C7: with at least one word and one sentence, the reading ease is the
Flesch formula clamped into `[0,100]` and the grade level the
Flesch-Kincaid formula floored at 0 with no upper clamp, both rounded to 2
decimals; the difficulty label is bucketed from the clamped score at
90/80/70/60/50/30; the reported ease never leaves `[0,100]` while for some
input the grade level exceeds 100. -/
theorem calculate_readability_spec (text : String) (asl aspw : ℚ)
    (hw : get_words text ≠ []) (hs : get_sentences text ≠ [])
    (hasl : asl = ((get_words text).length : ℚ) / ((get_sentences text).length : ℚ))
    (haspw : aspw = (((get_words text).map count_syllables).sum : ℚ) /
      ((get_words text).length : ℚ)) :
    (calculate_readability text).flesch_reading_ease
        = rnd2 (max 0 (min 100 (206.835 - 1.015 * asl - 84.6 * aspw))) ∧
    (calculate_readability text).flesch_grade_level
        = rnd2 (max 0 (0.39 * asl + 11.8 * aspw - 15.59)) ∧
    (90 ≤ max 0 (min 100 (206.835 - 1.015 * asl - 84.6 * aspw)) →
      (calculate_readability text).difficulty = "very easy") ∧
    (80 ≤ max 0 (min 100 (206.835 - 1.015 * asl - 84.6 * aspw)) →
      max 0 (min 100 (206.835 - 1.015 * asl - 84.6 * aspw)) < 90 →
      (calculate_readability text).difficulty = "easy") ∧
    (70 ≤ max 0 (min 100 (206.835 - 1.015 * asl - 84.6 * aspw)) →
      max 0 (min 100 (206.835 - 1.015 * asl - 84.6 * aspw)) < 80 →
      (calculate_readability text).difficulty = "fairly easy") ∧
    (60 ≤ max 0 (min 100 (206.835 - 1.015 * asl - 84.6 * aspw)) →
      max 0 (min 100 (206.835 - 1.015 * asl - 84.6 * aspw)) < 70 →
      (calculate_readability text).difficulty = "standard") ∧
    (50 ≤ max 0 (min 100 (206.835 - 1.015 * asl - 84.6 * aspw)) →
      max 0 (min 100 (206.835 - 1.015 * asl - 84.6 * aspw)) < 60 →
      (calculate_readability text).difficulty = "fairly difficult") ∧
    (30 ≤ max 0 (min 100 (206.835 - 1.015 * asl - 84.6 * aspw)) →
      max 0 (min 100 (206.835 - 1.015 * asl - 84.6 * aspw)) < 50 →
      (calculate_readability text).difficulty = "difficult") ∧
    (max 0 (min 100 (206.835 - 1.015 * asl - 84.6 * aspw)) < 30 →
      (calculate_readability text).difficulty = "very difficult") ∧
    (∀ t : String, 0 ≤ (calculate_readability t).flesch_reading_ease ∧
      (calculate_readability t).flesch_reading_ease ≤ 100) ∧
    (∃ t : String, 100 < (calculate_readability t).flesch_grade_level) := by
  have hc : ¬(get_sentences text = [] ∨ get_words text = []) := by
    simp [hw, hs]
  subst hasl haspw
  obtain ⟨b1, b2, b3, b4, b5, b6, b7⟩ := difficultyOf_spec
    (max 0 (min 100 (206.835 -
      1.015 * (((get_words text).length : ℚ) / ((get_sentences text).length : ℚ)) -
      84.6 * ((((get_words text).map count_syllables).sum : ℚ) /
        ((get_words text).length : ℚ)))))
  simp only [calculate_readability, if_neg hc]
  exact ⟨trivial, trivial, b1, b2, b3, b4, b5, b6, b7,
    fun t => flesch_reading_ease_in_range t,
    ⟨"abababababababababab.", grade_level_above_100⟩⟩

/-- Witness for C7 at `"ab ab."`: two one-syllable words in one sentence. -/
theorem calculate_readability_spec_witness :
    get_words "ab ab." ≠ [] ∧ get_sentences "ab ab." ≠ [] ∧
    ((2:ℚ) = ((get_words "ab ab.").length : ℚ) /
      ((get_sentences "ab ab.").length : ℚ)) ∧
    ((1:ℚ) = (((get_words "ab ab.").map count_syllables).sum : ℚ) /
      ((get_words "ab ab.").length : ℚ)) ∧
    (    (calculate_readability "ab ab.").flesch_reading_ease
        = rnd2 (max 0 (min 100 (206.835 - 1.015 * (2:ℚ) - 84.6 * (1:ℚ)))) ∧
    (calculate_readability "ab ab.").flesch_grade_level
        = rnd2 (max 0 (0.39 * (2:ℚ) + 11.8 * (1:ℚ) - 15.59)) ∧
    (90 ≤ max 0 (min 100 (206.835 - 1.015 * (2:ℚ) - 84.6 * (1:ℚ))) →
      (calculate_readability "ab ab.").difficulty = "very easy") ∧
    (80 ≤ max 0 (min 100 (206.835 - 1.015 * (2:ℚ) - 84.6 * (1:ℚ))) →
      max 0 (min 100 (206.835 - 1.015 * (2:ℚ) - 84.6 * (1:ℚ))) < 90 →
      (calculate_readability "ab ab.").difficulty = "easy") ∧
    (70 ≤ max 0 (min 100 (206.835 - 1.015 * (2:ℚ) - 84.6 * (1:ℚ))) →
      max 0 (min 100 (206.835 - 1.015 * (2:ℚ) - 84.6 * (1:ℚ))) < 80 →
      (calculate_readability "ab ab.").difficulty = "fairly easy") ∧
    (60 ≤ max 0 (min 100 (206.835 - 1.015 * (2:ℚ) - 84.6 * (1:ℚ))) →
      max 0 (min 100 (206.835 - 1.015 * (2:ℚ) - 84.6 * (1:ℚ))) < 70 →
      (calculate_readability "ab ab.").difficulty = "standard") ∧
    (50 ≤ max 0 (min 100 (206.835 - 1.015 * (2:ℚ) - 84.6 * (1:ℚ))) →
      max 0 (min 100 (206.835 - 1.015 * (2:ℚ) - 84.6 * (1:ℚ))) < 60 →
      (calculate_readability "ab ab.").difficulty = "fairly difficult") ∧
    (30 ≤ max 0 (min 100 (206.835 - 1.015 * (2:ℚ) - 84.6 * (1:ℚ))) →
      max 0 (min 100 (206.835 - 1.015 * (2:ℚ) - 84.6 * (1:ℚ))) < 50 →
      (calculate_readability "ab ab.").difficulty = "difficult") ∧
    (max 0 (min 100 (206.835 - 1.015 * (2:ℚ) - 84.6 * (1:ℚ))) < 30 →
      (calculate_readability "ab ab.").difficulty = "very difficult") ∧
    (∀ t : String, 0 ≤ (calculate_readability t).flesch_reading_ease ∧
      (calculate_readability t).flesch_reading_ease ≤ 100) ∧
    (∃ t : String, 100 < (calculate_readability t).flesch_grade_level)) := by
  have e1 : (get_words "ab ab.").length = 2 := by decide
  have e2 : (get_sentences "ab ab.").length = 1 := by decide
  have e3 : ((get_words "ab ab.").map count_syllables).sum = 2 := by decide
  have hasl : (2:ℚ) = ((get_words "ab ab.").length : ℚ) /
      ((get_sentences "ab ab.").length : ℚ) := by
    rw [e1, e2]; norm_num
  have haspw : (1:ℚ) = (((get_words "ab ab.").map count_syllables).sum : ℚ) /
      ((get_words "ab ab.").length : ℚ) := by
    rw [e3, e1]; norm_num
  exact ⟨by decide, by decide, hasl, haspw,
    calculate_readability_spec "ab ab." 2 1 (by decide) (by decide) hasl haspw⟩

/-! ## Lemmas about the run splitter, for C10 -/

/-- Concatenating the split pieces gives back the non-separator
characters. -/
theorem join_splitRunsAux (p : Char → Bool) (l acc : List Char) :
    (splitRunsAux p l acc).flatten = acc.reverse ++ l.filter (fun c => !p c) := by
  induction l generalizing acc with
  | nil =>
    by_cases ha : acc = []
    · simp [splitRunsAux, ha]
    · simp [splitRunsAux, ha]
  | cons c cs ih =>
    rw [splitRunsAux]
    by_cases hc : p c = true
    · rw [if_pos hc]
      by_cases ha : acc = []
      · rw [if_pos ha, ih, ha]
        simp [hc]
      · rw [if_neg ha]
        simp only [List.flatten_cons, ih, List.filter_cons, hc]
        simp
    · rw [if_neg hc, ih]
      simp [List.filter_cons, hc]

/-- Every emitted piece is non-empty. -/
theorem ne_nil_of_mem_splitRunsAux (p : Char → Bool) (l : List Char) :
    ∀ (acc : List Char) (w : List Char), w ∈ splitRunsAux p l acc → w ≠ [] := by
  induction l with
  | nil =>
    intro acc w hw
    rw [splitRunsAux] at hw
    by_cases ha : acc = []
    · simp [ha] at hw
    · rw [if_neg ha] at hw
      simp only [List.mem_singleton] at hw
      subst hw
      simpa using ha
  | cons c cs ih =>
    intro acc w hw
    rw [splitRunsAux] at hw
    by_cases hc : p c = true
    · rw [if_pos hc] at hw
      by_cases ha : acc = []
      · rw [if_pos ha] at hw
        exact ih [] w hw
      · rw [if_neg ha] at hw
        rcases List.mem_cons.mp hw with rfl | hw'
        · simpa using ha
        · exact ih [] w hw'
    · rw [if_neg hc] at hw
      exact ih (c :: acc) w hw

/-- `dropWhile` keeps every element that fails the predicate. -/
theorem mem_dropWhile_of_mem {p : Char → Bool} {c : Char} {l : List Char}
    (hc : c ∈ l) (hp : p c = false) : c ∈ l.dropWhile p := by
  induction l with
  | nil => simp at hc
  | cons x xs ih =>
    rw [List.dropWhile_cons]
    rcases List.mem_cons.mp hc with rfl | hx
    · simp [hp]
    · by_cases hpx : p x = true
      · simp only [hpx, if_true]
        exact ih hx
      · simp only [hpx, if_false]
        exact List.mem_cons_of_mem x hx

/-- `strip` keeps every non-whitespace character. -/
theorem mem_strip_of_mem {c : Char} {l : List Char}
    (hc : c ∈ l) (hw : c.isWhitespace = false) : c ∈ strip l := by
  rw [strip]
  rw [List.mem_reverse]
  apply mem_dropWhile_of_mem _ hw
  rw [List.mem_reverse]
  exact mem_dropWhile_of_mem hc hw

/-- A character that lowercases to a word character is neither a sentence
separator nor whitespace. -/
theorem wordChar_not_sep_not_ws (c : Char) (h : isWordChar c.toLower = true) :
    isSentSep c = false ∧ c.isWhitespace = false := by
  constructor
  · by_contra hx
    rw [Bool.not_eq_false] at hx
    have h3 : (c = '.' ∨ c = '!') ∨ c = '?' := by
      simpa [isSentSep] using hx
    rcases h3 with (rfl | rfl) | rfl <;> exact absurd h (by decide)
  · by_contra hx
    rw [Bool.not_eq_false] at hx
    have h3 : ((c = ' ' ∨ c = '\t') ∨ c = '\x0d') ∨ c = '\n' := by
      simpa [Char.isWhitespace] using hx
    rcases h3 with ((rfl | rfl) | rfl) | rfl <;> exact absurd h (by decide)

/-- The bucketing never yields the label of the degenerate branch. -/
theorem difficultyOf_ne_unknown (F : ℚ) : difficultyOf F ≠ "unknown" := by
  rw [difficultyOf]
  split_ifs <;> decide

/-- If the normalized word list is non-empty, so is the sentence list: a
word character survives the sentence split and keeps its piece
non-blank. -/
theorem words_nonempty_then_sentences_nonempty (text : String) :
    get_words text ≠ [] → get_sentences text ≠ [] := by
  intro hw
  rw [get_words] at hw
  obtain ⟨s, hs⟩ := List.exists_mem_of_ne_nil _ hw
  have hs' := List.mem_filter.mp hs
  obtain ⟨piece, hpiece, hmk⟩ := List.mem_map.mp hs'.1
  have hpne : piece ≠ [] := ne_nil_of_mem_splitRunsAux _ _ _ _ hpiece
  obtain ⟨c, hc⟩ := List.exists_mem_of_ne_nil _ hpne
  have hcj : c ∈ (splitRunsAux Char.isWhitespace (clean_text text).data []).flatten :=
    List.mem_flatten.mpr ⟨piece, hpiece, hc⟩
  rw [join_splitRunsAux] at hcj
  simp only [List.reverse_nil, List.nil_append] at hcj
  have hcf := List.mem_filter.mp hcj
  have hcw : c.isWhitespace = false := by simpa using hcf.2
  have hdata : (clean_text text).data
      = (text.data.map Char.toLower).filter (fun c => isWordChar c || c.isWhitespace) :=
    rfl
  rw [hdata] at hcf
  have hcc := List.mem_filter.mp hcf.1
  obtain ⟨c0, hc0, hlow⟩ := List.mem_map.mp hcc.1
  have hword : isWordChar c = true := by
    have h2 := hcc.2
    simp only [Bool.or_eq_true] at h2
    rcases h2 with h2 | h2
    · exact h2
    · rw [h2] at hcw; cases hcw
  obtain ⟨hsep0, hws0⟩ := wordChar_not_sep_not_ws c0 (by rw [hlow]; exact hword)
  have hc0f : c0 ∈ text.data.filter (fun x => !isSentSep x) :=
    List.mem_filter.mpr ⟨hc0, by simp [hsep0]⟩
  have hc0j : c0 ∈ (splitRunsAux isSentSep text.data []).flatten := by
    rw [join_splitRunsAux]
    simpa using hc0f
  obtain ⟨piece2, hp2, hcp2⟩ := List.mem_flatten.mp hc0j
  have hstrip : c0 ∈ strip piece2 := mem_strip_of_mem hcp2 hws0
  have hsne : strip piece2 ≠ [] := by
    intro he
    rw [he] at hstrip
    simp at hstrip
  intro hempty
  rw [get_sentences] at hempty
  have hmem : strip piece2
      ∈ ((splitRuns isSentSep text.data).map strip).filter (fun s => s ≠ []) :=
    List.mem_filter.mpr ⟨List.mem_map_of_mem strip hp2, by simpa using hsne⟩
  rw [List.map_eq_nil_iff] at hempty
  rw [hempty] at hmem
  simp at hmem

/-! ## C10: the word/sentence guard -/

/-- C10: a text with at least one word has at least one sentence, and the
all-zero "unknown" readability result is produced exactly when the text
yields no words (so the sentence-count divisions are guarded whenever a
word exists). -/
theorem words_guard_spec (text : String) :
    (get_words text ≠ [] → get_sentences text ≠ []) ∧
    (calculate_readability text
        = (⟨0, 0, 0, 0, "unknown"⟩ : ReadabilityResult) ↔ get_words text = []) := by
  refine ⟨words_nonempty_then_sentences_nonempty text, ?_, ?_⟩
  · intro h
    by_contra hne
    have hsent := words_nonempty_then_sentences_nonempty text hne
    have hcond : ¬(get_sentences text = [] ∨ get_words text = []) := by
      simp [hsent, hne]
    have hd2 : (calculate_readability text).difficulty ≠ "unknown" := by
      simp only [calculate_readability, if_neg hcond]
      apply difficultyOf_ne_unknown
    rw [h] at hd2
    exact hd2 rfl
  · intro hw
    simp only [calculate_readability, if_pos (Or.inr hw)]

/-- Witness for C10 at `"hi."`. -/
theorem words_guard_spec_witness :
    get_words "hi." ≠ [] ∧
    ((get_words "hi." ≠ [] → get_sentences "hi." ≠ []) ∧
     (calculate_readability "hi."
        = (⟨0, 0, 0, 0, "unknown"⟩ : ReadabilityResult) ↔ get_words "hi." = [])) :=
  ⟨by decide, words_guard_spec "hi."⟩

/-! ## Lemmas about the id sequence, for C4 -/

/-- The fuel-based digit function agrees with `Nat.digits` base 10. -/
theorem natDigitsAux_eq_digits : ∀ (fuel n : Nat), n ≤ fuel →
    natDigitsAux fuel n = Nat.digits 10 n := by
  intro fuel
  induction fuel with
  | zero =>
    intro n hn
    have : n = 0 := by omega
    subst this
    simp [natDigitsAux]
  | succ fuel ih =>
    intro n hn
    match n with
    | 0 => simp [natDigitsAux]
    | m + 1 =>
      rw [natDigitsAux]
      rw [Nat.digits_def' (by norm_num : (1:ℕ) < 10) (Nat.succ_pos m)]
      congr 1
      apply ih
      have : (m + 1) / 10 < m + 1 := Nat.div_lt_self (Nat.succ_pos m) (by norm_num)
      omega

/-- Decoding inverts rendering: the decimal string of `n` denotes `n`. -/
theorem decValue_str10 (n : Nat) : decValue (str10 n) = n := by
  rw [decValue, str10]
  show Nat.ofDigits 10
      (((((natDigitsAux n n).map Nat.digitChar).reverse).map
        (fun c => c.toNat - 48)).reverse) = n
  rw [natDigitsAux_eq_digits n n le_rfl]
  rw [List.map_reverse, List.reverse_reverse, List.map_map]
  have hcongr : ((Nat.digits 10 n).map ((fun c => c.toNat - 48) ∘ Nat.digitChar))
      = (Nat.digits 10 n).map id := by
    apply List.map_congr_left
    intro d hd
    have hlt : d < 10 := Nat.digits_lt_base (by norm_num) hd
    interval_cases d <;> rfl
  rw [hcongr, List.map_id, Nat.ofDigits_digits]

/-- `k` adds produce `k` ids. -/
theorem idList_length (k : Nat) : (idList k).length = k := by
  induction k with
  | zero => rfl
  | succ k ih => simp [idList, ih]

/-- The id list after `k` adds holds exactly the ids `1..k`. -/
theorem mem_idList {x : String} {k : Nat} :
    x ∈ idList k ↔ ∃ j, 1 ≤ j ∧ j ≤ k ∧ x = str10 j := by
  induction k with
  | zero =>
    simp only [idList, List.not_mem_nil, false_iff]
    rintro ⟨j, h1, h2, _⟩
    omega
  | succ k ih =>
    rw [idList, List.mem_append, ih]
    constructor
    · rintro (⟨j, h1, h2, rfl⟩ | hx)
      · exact ⟨j, h1, by omega, rfl⟩
      · simp only [List.mem_singleton] at hx
        exact ⟨k + 1, by omega, by omega, hx⟩
    · rintro ⟨j, h1, h2, rfl⟩
      by_cases hj : j ≤ k
      · exact Or.inl ⟨j, h1, hj, rfl⟩
      · have : j = k + 1 := by omega
        subst this
        simp

/-- The id list is strictly increasing in denoted numeric value. -/
theorem pairwise_decValue_idList (k : Nat) :
    (idList k).Pairwise (fun a b => decValue a < decValue b) := by
  induction k with
  | zero => simp [idList]
  | succ k ih =>
    rw [idList, List.pairwise_append]
    refine ⟨ih, by simp, ?_⟩
    intro a ha b hb
    simp only [List.mem_singleton] at hb
    subst hb
    obtain ⟨j, h1, h2, rfl⟩ := mem_idList.mp ha
    rw [decValue_str10, decValue_str10]
    omega

/-- Adding documents extends the id sequence and advances the counter. -/
theorem addMany_keys (items : List (DocData × String)) :
    ∀ (k : Nat) (s : Store), s.next_id = k + 1 →
      s.documents.map Prod.fst = idList k →
      (addMany s items).next_id = k + items.length + 1 ∧
      (addMany s items).documents.map Prod.fst = idList (k + items.length) := by
  induction items with
  | nil =>
    intro k s h1 h2
    exact ⟨by simpa [addMany] using h1, by simpa [addMany] using h2⟩
  | cons it its ih =>
    intro k s h1 h2
    have hstep : ((add_document s it.1 it.2).2.next_id = (k + 1) + 1) ∧
        (add_document s it.1 it.2).2.documents.map Prod.fst = idList (k + 1) := by
      constructor
      · simp [add_document, h1]
      · simp only [add_document, List.map_append, h2, List.map_cons, List.map_nil, h1]
        rw [idList]
    have := ih (k + 1) (add_document s it.1 it.2).2 hstep.1 hstep.2
    constructor
    · rw [show addMany s (it :: its) = addMany (add_document s it.1 it.2).2 its from rfl]
      rw [this.1]
      simp
      omega
    · rw [show addMany s (it :: its) = addMany (add_document s it.1 it.2).2 its from rfl]
      rw [this.2]
      congr 1
      simp
      omega

/-! ## C4: id allocation in every reachable store state -/

/-- C4: in every reachable store state (16 seed documents plus `n` user
adds) the stored keys are exactly the decimal strings "1".. str(16+n) in
order, the counter is at 16+n+1, `list()` has length 16+n, the ids are
pairwise distinct, and they are strictly increasing as decimal
numerals. -/
theorem store_ids_spec (n : Nat) (s : Store) (h : Reachable n s) :
    s.documents.map Prod.fst = idList (16 + n) ∧
    s.next_id = 16 + n + 1 ∧
    (get_all_documents s).length = 16 + n ∧
    (s.documents.map Prod.fst).Nodup ∧
    (s.documents.map Prod.fst).Pairwise (fun a b => decValue a < decValue b) := by
  have hkey : s.documents.map Prod.fst = idList (16 + n) ∧ s.next_id = 16 + n + 1 := by
    induction h with
    | init clock =>
      have hlen : (sample_docs.enum.map (fun p => (p.2, clock p.1))).length = 16 := by
        rw [List.length_map, List.enum_length]
        rfl
      have h0 := addMany_keys (sample_docs.enum.map (fun p => (p.2, clock p.1))) 0
        emptyStore rfl rfl
      rw [hlen] at h0
      constructor
      · have := h0.2
        simpa [initStore] using this
      · have := h0.1
        simpa [initStore] using this
    | @step m t d now hr ih =>
      constructor
      · show (add_document t d now).2.documents.map Prod.fst = idList (16 + (m + 1))
        have he : 16 + (m + 1) = (16 + m) + 1 := by omega
        rw [he, idList]
        simp only [add_document, List.map_append, List.map_cons, List.map_nil]
        rw [ih.1, ih.2]
      · show (add_document t d now).2.next_id = 16 + (m + 1) + 1
        simp only [add_document, ih.2]
        omega
  refine ⟨hkey.1, hkey.2, ?_, ?_, ?_⟩
  · rw [get_all_documents, List.length_map]
    have hl := congrArg List.length hkey.1
    rw [List.length_map] at hl
    rw [hl, idList_length]
  · have hp : (s.documents.map Prod.fst).Pairwise (fun a b => decValue a < decValue b) := by
      rw [hkey.1]
      exact pairwise_decValue_idList _
    exact hp.imp (fun hlt heq => absurd (heq ▸ hlt) (lt_irrefl _))
  · rw [hkey.1]
    exact pairwise_decValue_idList _

/-- Witness for C4 at the freshly initialized store. -/
theorem store_ids_spec_witness :
    Reachable 0 (initStore (fun _ => "2024-01-01T00:00:00")) ∧
    ((initStore (fun _ => "2024-01-01T00:00:00")).documents.map Prod.fst
        = idList (16 + 0) ∧
     (initStore (fun _ => "2024-01-01T00:00:00")).next_id = 16 + 0 + 1 ∧
     (get_all_documents (initStore (fun _ => "2024-01-01T00:00:00"))).length = 16 + 0 ∧
     ((initStore (fun _ => "2024-01-01T00:00:00")).documents.map Prod.fst).Nodup ∧
     ((initStore (fun _ => "2024-01-01T00:00:00")).documents.map Prod.fst).Pairwise
        (fun a b => decValue a < decValue b)) :=
  ⟨Reachable.init _, store_ids_spec 0 _ (Reachable.init _)⟩

/-! ## Lemmas about dict lookup, for C5 and C6 -/

/-- A successful lookup returns a stored binding. -/
theorem mem_of_lookup_eq_some {l : List (String × Doc)} {k : String} {d : Doc}
    (h : l.lookup k = some d) : (k, d) ∈ l := by
  induction l with
  | nil => simp at h
  | cons p ps ih =>
    obtain ⟨a, b⟩ := p
    rw [List.lookup_cons] at h
    by_cases hk : k == a
    · rw [hk] at h
      simp only [Option.some.injEq] at h
      subst h
      have : k = a := by simpa using hk
      subst this
      exact List.mem_cons_self _ _
    · rw [Bool.not_eq_true] at hk
      rw [hk] at h
      exact List.mem_cons_of_mem _ (ih h)

/-- Lookup fails exactly when the key is absent. -/
theorem lookup_eq_none_iff {l : List (String × Doc)} {k : String} :
    l.lookup k = none ↔ k ∉ l.map Prod.fst := by
  induction l with
  | nil => simp
  | cons p ps ih =>
    obtain ⟨a, b⟩ := p
    rw [List.lookup_cons]
    by_cases hk : k == a
    · have hka : k = a := by simpa using hk
      subst hka
      simp [hk]
    · rw [Bool.not_eq_true] at hk
      rw [hk]
      have hka : k ≠ a := by simpa using hk
      simp [ih, hka]

/-! ## C6: the single not-found error condition -/

/-- C6: `get_document` returns a stored document when the id is present
and the `none` signal (not an exception) when absent; `analyze_document`
turns that into the error payload whose message is
`Document with ID <id> not found` instead of raising, analyzes the stored
content otherwise, and
never changes the store. -/
theorem get_document_spec (s : Store) (doc_id now : String) :
    (∀ d : Doc, get_document s doc_id = some d → (doc_id, d) ∈ s.documents) ∧
    (get_document s doc_id = none ↔ doc_id ∉ s.documents.map Prod.fst) ∧
    (get_document s doc_id = none →
      (analyze_document s doc_id now).1
        = AnalyzeResult.error ("Document with ID " ++ doc_id ++ " not found")) ∧
    (∀ d : Doc, get_document s doc_id = some d →
      (analyze_document s doc_id now).1 = AnalyzeResult.ok doc_id d.title d.author
        d.category (analyze_sentiment d.content) (extract_keywords d.content 10)
        (calculate_readability d.content) (get_text_stats d.content) now) ∧
    (analyze_document s doc_id now).2 = s := by
  refine ⟨fun d h => mem_of_lookup_eq_some h, lookup_eq_none_iff, ?_, ?_, ?_⟩
  · intro h
    simp [analyze_document, h]
  · intro d h
    simp [analyze_document, h]
  · rcases hcase : get_document s doc_id with _ | d <;> simp [analyze_document, hcase]

/-! ## C5: substring search -/

/-- C5: `search_documents` returns exactly the stored documents whose
lowercased title, content, or some lowercased tag contains the lowercased
query, in insertion order (a sublist of the stored values, so storage is
untouched and only compared lowercased); the empty query matches every
document. -/
theorem search_documents_spec (s : Store) (q : String) :
    (∀ d : Doc, d ∈ search_documents s q ↔
      (d ∈ s.documents.map Prod.snd ∧
        ((lowerStr q).data <:+: (lowerStr d.title).data ∨
         (lowerStr q).data <:+: (lowerStr d.content).data ∨
         ∃ t ∈ d.tags, (lowerStr q).data <:+: (lowerStr t).data))) ∧
    List.Sublist (search_documents s q) (s.documents.map Prod.snd) ∧
    search_documents s "" = s.documents.map Prod.snd := by
  refine ⟨?_, ?_, ?_⟩
  · intro d
    rw [search_documents, List.mem_filter]
    simp [List.any_eq_true]
    intro x hx
    tauto
  · exact List.filter_sublist _
  · rw [search_documents]
    apply List.filter_eq_self.mpr
    intro d hd
    have h0 : (lowerStr "").data = [] := rfl
    simp only [h0]
    simp

/-- Witness for C6: a missing id on the seeded store yields the error
payload and leaves the store unchanged. -/
theorem get_document_spec_witness :
    get_document (initStore (fun _ => "ts")) "99" = none ∧
    ((∀ d : Doc, get_document (initStore (fun _ => "ts")) "99" = some d →
        ("99", d) ∈ (initStore (fun _ => "ts")).documents) ∧
     (get_document (initStore (fun _ => "ts")) "99" = none ↔
        "99" ∉ (initStore (fun _ => "ts")).documents.map Prod.fst) ∧
     (get_document (initStore (fun _ => "ts")) "99" = none →
       (analyze_document (initStore (fun _ => "ts")) "99" "now").1
         = AnalyzeResult.error ("Document with ID " ++ "99" ++ " not found")) ∧
     (∀ d : Doc, get_document (initStore (fun _ => "ts")) "99" = some d →
       (analyze_document (initStore (fun _ => "ts")) "99" "now").1
         = AnalyzeResult.ok "99" d.title d.author d.category
            (analyze_sentiment d.content) (extract_keywords d.content 10)
            (calculate_readability d.content) (get_text_stats d.content) "now") ∧
     (analyze_document (initStore (fun _ => "ts")) "99" "now").2
        = initStore (fun _ => "ts")) :=
  ⟨by decide, get_document_spec (initStore (fun _ => "ts")) "99" "now"⟩

/-- Witness for C5 on the seeded store with the query `"solar"`. -/
theorem search_documents_spec_witness :
    (∀ d : Doc, d ∈ search_documents (initStore (fun _ => "ts")) "solar" ↔
      (d ∈ (initStore (fun _ => "ts")).documents.map Prod.snd ∧
        ((lowerStr "solar").data <:+: (lowerStr d.title).data ∨
         (lowerStr "solar").data <:+: (lowerStr d.content).data ∨
         ∃ t ∈ d.tags, (lowerStr "solar").data <:+: (lowerStr t).data))) ∧
    List.Sublist (search_documents (initStore (fun _ => "ts")) "solar")
      ((initStore (fun _ => "ts")).documents.map Prod.snd) ∧
    search_documents (initStore (fun _ => "ts")) ""
      = (initStore (fun _ => "ts")).documents.map Prod.snd :=
  search_documents_spec (initStore (fun _ => "ts")) "solar"
